import Mathlib

/-!
Shallow embedding of `aws_list_resources.py`, a CLI tool that lists AWS
resources for a given service and region.  Pure helpers are embedded as Lean
functions; the effectful parts (stdout/stderr, process exit, the AWS SDK) are
embedded by making output explicit (lists of printed lines, an exit code) and
by treating the SDK responses as oracle inputs.  Python exceptions that a
function may raise are embedded as `Option`/`Except` results.
-/

namespace AwsList

/-! ### Python string helpers

The script uses `str.ljust`, `str.lower`, `str.strip`, `"x".join(...)`,
`"c" * n` and f-strings.  We embed them for the ASCII strings the script
manipulates. -/

/-- Python `s.ljust(w)`: pad `s` on the right with spaces to width `w`;
if `s` is already at least `w` characters long it is returned unchanged. -/
def ljust (s : String) (w : Nat) : String :=
  s ++ String.mk (List.replicate (w - s.length) ' ')

/-- Python `"c" * n` for a single character `c`. -/
def repChar (c : Char) (n : Nat) : String :=
  String.mk (List.replicate n c)

/-- Python `str.lower` on the ASCII range (the script only compares against
ASCII service keys). -/
def pyLower (s : String) : String :=
  String.mk (s.data.map Char.toLower)

/-- Python whitespace as recognized by `str.strip`. -/
def isPySpace (c : Char) : Bool :=
  c = ' ' || c = '\t' || c = '\n' || c = '\r' || c = '\x0b' || c = '\x0c'

/-- Python `s.strip()`: remove leading and trailing whitespace. -/
def pyStrip (s : String) : String :=
  String.mk (((s.data.dropWhile isPySpace).reverse.dropWhile isPySpace).reverse)

/-! ### Timestamps and `human_ts` (source lines 33-37)

`human_ts(dt)` tries `dt.strftime("%Y-%m-%d %H:%M:%S")` and falls back to
`str(dt)` when the value has no such method (it is `None`, because the field
was absent, or some malformed non-datetime value).  We embed the possible
inputs as a sum: a well-formed datetime carrying its calendar fields, the
missing value `None` (whose `str` is `"None"`), or a malformed value carrying
its `str` form. -/

/-- The value found in a timestamp field of an API response. -/
inductive TsVal where
  /-- The field was absent: `dict.get` returned `None`. -/
  | missing : TsVal
  /-- A well-formed `datetime` with the given fields. -/
  | dt (year month day hour minute second : Nat) : TsVal
  /-- A malformed value whose Python `str()` form is `s`. -/
  | mal (s : String) : TsVal
  deriving DecidableEq, Repr

/-- Zero-pad a number to two digits (`%m`, `%d`, `%H`, `%M`, `%S`). -/
def pad2 (n : Nat) : String :=
  if n < 10 then "0" ++ toString n else toString n

/-- Zero-pad a number to four digits (`%Y`). -/
def pad4 (n : Nat) : String :=
  if n < 10 then "000" ++ toString n
  else if n < 100 then "00" ++ toString n
  else if n < 1000 then "0" ++ toString n
  else toString n

/-- `dt.strftime("%Y-%m-%d %H:%M:%S")` for a well-formed datetime. -/
def strftimeYmdHMS (year month day hour minute second : Nat) : String :=
  pad4 year ++ "-" ++ pad2 month ++ "-" ++ pad2 day ++ " " ++
    pad2 hour ++ ":" ++ pad2 minute ++ ":" ++ pad2 second

/-- `human_ts` (source lines 33-37): format a datetime, falling back to the
raw `str()` form when the value is missing or malformed. -/
def human_ts : TsVal → String
  | .dt y mo d h mi s => strftimeYmdHMS y mo d h mi s
  | .missing => "None"
  | .mal s => s

/-! ### `print_header` (source lines 39-42) -/

/-- `print_header(title)`: the three lines printed — a run of `=` as long as
the title, the title, the same `=` run again. -/
def print_header (title : String) : List String :=
  [repChar '=' title.length, title, repChar '=' title.length]

/-! ### `print_table` (source lines 44-62)

The Python function prints to stdout and can raise `IndexError` when a row's
length disagrees with the header count.  We embed it as a function returning
`Option (List String)`: `some lines` when the Python call completes having
printed `lines`, `none` when it raises.  Each indexing loop is embedded as a
lockstep recursion: reading `widths[i]` / `r[i]` past the end of the list is
the `none` case, exactly where Python raises `IndexError`. -/

/-- One pass of the width loop (source lines 50-52):
`for i, col in enumerate(r): widths[i] = max(widths[i], len(col))`.
`i` walks `widths` in lockstep with the cells of `r`; when `r` is longer than
`widths` the read `widths[i]` raises `IndexError` (`none`). -/
def updRow : List Nat → List String → Option (List Nat)
  | widths, [] => some widths
  | w :: ws, c :: cs => (updRow ws cs).map (fun ws2 => max w c.length :: ws2)
  | [], _ :: _ => none

/-- The outer width loop (source lines 50-52): fold every row through
`updRow`, aborting on the first `IndexError`. -/
def widthLoop : List Nat → List (List String) → Option (List Nat)
  | ws, [] => some ws
  | ws, r :: rs => (updRow ws r).bind (fun ws2 => widthLoop ws2 rs)

/-- Width computation (source lines 49-52): start from the header lengths,
then fold every row through the width loop. -/
def computeWidths (headers : List String) (rows : List (List String)) :
    Option (List Nat) :=
  widthLoop (headers.map String.length) rows

/-- Cells of the header line (source line 55):
`h.ljust(widths[i]) for i, h in enumerate(headers)`. -/
def headerCells : List String → List Nat → Option (List String)
  | [], _ => some []
  | h :: hs, w :: ws => (headerCells hs ws).map (fun cs => ljust h w :: cs)
  | _ :: _, [] => none

/-- Cells of the separator line (source line 56):
`"-" * widths[i] for i in range(len(headers))`. -/
def sepCells : Nat → List Nat → Option (List String)
  | 0, _ => some []
  | n + 1, w :: ws => (sepCells n ws).map (fun cs => repChar '-' w :: cs)
  | _ + 1, [] => none

/-- Cells of one data row (source line 62):
`r[i].ljust(widths[i]) for i in range(len(headers))`; reading past the end of
`r` (row shorter than the headers) raises `IndexError` (`none`). -/
def rowCells : Nat → List String → List Nat → Option (List String)
  | 0, _, _ => some []
  | n + 1, c :: cs, w :: ws => (rowCells n cs ws).map (fun out => ljust c w :: out)
  | _ + 1, _, _ => none

/-- The row-printing loop (source lines 61-62): one line per row, aborting on
the first `IndexError`. -/
def renderRows (n : Nat) (widths : List Nat) : List (List String) → Option (List String)
  | [] => some []
  | r :: rs =>
    (rowCells n r widths).bind (fun cs =>
      (renderRows n widths rs).map
        (fun rest => String.intercalate " | " cs :: rest))

/-- `print_table(rows, headers)` (source lines 44-62), as the list of lines it
prints when it completes, `none` when it raises. -/
def print_table (rows : List (List String)) (headers : List String) :
    Option (List String) :=
  if rows.isEmpty then some ["(no resources found)"]
  else do
    let widths ← computeWidths headers rows
    let hl ← headerCells headers widths
    let sl ← sepCells headers.length widths
    let rls ← renderRows headers.length widths rows
    pure (String.intercalate " | " hl :: String.intercalate "-+-" sl :: rls)

/-- A handler's full rendering of a section: the boxed title header followed
by the table (`print_header(title)` then `print_table(rows, headers)` in every
handler). -/
def renderSection (title : String) (rows : List (List String))
    (headers : List String) : Option (List String) :=
  (print_table rows headers).map (fun t => print_header title ++ t)

/-! ### `list_ec2` row construction (source lines 80-101)

The handler pages through `describe_instances`, walks
reservations → instances, and builds one display row per instance.  The
response dictionaries are embedded as structures whose fields are `Option`s:
`none` models an absent key, so `dict.get(k, d)` is `Option.getD`. -/

/-- One entry of an instance's `Tags` list. -/
structure Ec2Tag where
  key : Option String
  value : Option String
  deriving DecidableEq, Repr

/-- The `State` sub-dictionary of an instance. -/
structure Ec2State where
  name : Option String
  deriving DecidableEq, Repr

/-- The `Placement` sub-dictionary of an instance. -/
structure Ec2Placement where
  availabilityZone : Option String
  deriving DecidableEq, Repr

/-- One instance dictionary from a `describe_instances` page.  `tags = none`
models both an absent `Tags` key and an explicit `None` value: the source
collapses both to `[]` via `inst.get("Tags", []) or []`. -/
structure Ec2Instance where
  instanceId : Option String
  instanceType : Option String
  state : Option Ec2State
  placement : Option Ec2Placement
  launchTime : TsVal
  tags : Option (List Ec2Tag)
  deriving DecidableEq, Repr

/-- The `Name`-tag loop (source lines 94-98): `name` starts empty and is set
to the `Value` of the first tag whose `Key` equals `"Name"`, then the loop
breaks. -/
def nameTagLoop : List Ec2Tag → String
  | [] => ""
  | t :: ts => if t.key = some "Name" then t.value.getD "" else nameTagLoop ts

/-- The row appended for one instance (source lines 88-99). -/
def ec2Row (inst : Ec2Instance) : List String :=
  [inst.instanceId.getD "",
   ((inst.state.map Ec2State.name).getD none).getD "",
   inst.instanceType.getD "",
   ((inst.placement.map Ec2Placement.availabilityZone).getD none).getD "",
   human_ts inst.launchTime,
   nameTagLoop (inst.tags.getD [])]

/-- One reservation from a `describe_instances` page. -/
structure Ec2Reservation where
  instances : Option (List Ec2Instance)
  deriving DecidableEq, Repr

/-- One page of `describe_instances`. -/
structure Ec2Page where
  reservations : Option (List Ec2Reservation)
  deriving DecidableEq, Repr

/-- All rows accumulated by `list_ec2` (source lines 84-99): every page,
every reservation, every instance, in order. -/
def list_ec2_rows (pages : List Ec2Page) : List (List String) :=
  (pages.flatMap (fun p => (p.reservations.getD []).flatMap
    (fun res => res.instances.getD []))).map ec2Row

/-! ### `list_s3` (source lines 103-126)

`list_buckets` returns all buckets; for each the handler queries
`get_bucket_location`.  The outcome of that query is part of the oracle
input: it returns a `LocationConstraint` (possibly `None` — the `us-east-1`
quirk), raises `ClientError` (caught: the bucket is skipped with `continue`),
or raises some other exception (not caught: it propagates out of the
handler).  We attach the outcome to each bucket and embed the handler as an
`Except`, where `.error` is a propagating exception. -/

/-- Outcome of `s3.get_bucket_location(Bucket=name)` for one bucket. -/
inductive LocQuery where
  /-- The call returned; `constraint` is the `LocationConstraint` value,
  `none` when the response carries no constraint. -/
  | ok (constraint : Option String) : LocQuery
  /-- The call raised `ClientError` (e.g. access denied). -/
  | clientErr : LocQuery
  /-- The call raised some exception other than `ClientError`. -/
  | otherErr : LocQuery
  deriving DecidableEq, Repr

/-- One bucket from `list_buckets`, together with the oracle outcome of its
location query. -/
structure S3Bucket where
  name : String
  creationDate : TsVal
  loc : LocQuery
  deriving DecidableEq, Repr

/-- `loc or "us-east-1"` (source line 118): Python `or` replaces both `None`
and the empty string (falsy) by `"us-east-1"`. -/
def resolveLoc : Option String → String
  | none => "us-east-1"
  | some s => if s = "" then "us-east-1" else s

/-- The bucket loop of `list_s3` (source lines 112-124): rows for the buckets
whose resolved location equals the requested region; a `ClientError` on the
location query skips the bucket (`continue`); any other exception propagates
(`.error`). -/
def s3BucketLoop (region : String) : List S3Bucket → Except Unit (List (List String))
  | [] => .ok []
  | b :: bs =>
    match b.loc with
    | .clientErr => s3BucketLoop region bs
    | .otherErr => .error ()
    | .ok c =>
      let bucketRegion := resolveLoc c
      (s3BucketLoop region bs).map (fun rest =>
        if bucketRegion = region then
          [b.name, bucketRegion, human_ts b.creationDate] :: rest
        else rest)

/-! ### `list_dynamodb` (source lines 128-144)

The handler pages through `list_tables` and calls `describe_table` on each
name.  The outcome of each describe call is oracle input: a `Table`
dictionary, a `ClientError` (caught: an `(access denied)` row is appended),
or any other exception (not caught: it propagates). -/

/-- Outcome of `ddb.describe_table(TableName=t)` for one table. -/
inductive DescribeResult where
  /-- The call returned a `Table` dictionary with these fields
  (`none` models an absent key). -/
  | ok (tableStatus : Option String) (itemCount : Option Int)
      (tableSizeBytes : Option Int) : DescribeResult
  /-- The call raised `ClientError`. -/
  | clientErr : DescribeResult
  /-- The call raised some exception other than `ClientError`. -/
  | otherErr : DescribeResult
  deriving DecidableEq, Repr

/-- One table name from the paginated listing, with the oracle outcome of its
describe call. -/
structure DdbTable where
  name : String
  describe : DescribeResult
  deriving DecidableEq, Repr

/-- `str(desc.get(key, ""))` for the numeric fields: `str` of the integer
when present, `str("") = ""` when absent. -/
def strOptInt : Option Int → String
  | some n => toString n
  | none => ""

/-- The table loop of `list_dynamodb` (source lines 134-142): a successful
describe yields `[name, status, items, size]`; a `ClientError` yields
`[name, "(access denied)", "", ""]`; any other exception propagates. -/
def ddbTableLoop : List DdbTable → Except Unit (List (List String))
  | [] => .ok []
  | t :: ts =>
    match t.describe with
    | .ok st items size =>
      (ddbTableLoop ts).map (fun rest =>
        [t.name, st.getD "", strOptInt items, strOptInt size] :: rest)
    | .clientErr =>
      (ddbTableLoop ts).map (fun rest =>
        [t.name, "(access denied)", "", ""] :: rest)
    | .otherErr => .error ()

/-- One page of `list_tables`; `tableNames = none` models an absent
`TableNames` key (`page.get("TableNames", [])`). -/
structure DdbPage where
  tableNames : Option (List DdbTable)
  deriving DecidableEq, Repr

/-- All tables seen by `list_dynamodb` across its pages, in order. -/
def ddbTablesOf (pages : List DdbPage) : List DdbTable :=
  pages.flatMap (fun p => p.tableNames.getD [])

/-! ### Dispatch and error translation (`SUPPORTED`, `get_session`, `main`,
source lines 64-76 and 178-229)

`main` normalizes the service and region arguments, rejects unknown service
keys, builds a session, invokes the matched handler and translates every
exception into a `fail(msg, code)` call — a line `Error: <msg>` on stderr
and a process exit with `code`.  The AWS SDK is the oracle: a `World` says
how session construction and the handler invocation turn out.  The result of
a run records the exit code, the stderr lines, and which session/handler
calls were made with which arguments. -/

/-- The five keys of the `SUPPORTED` dict (source lines 178-184). -/
inductive Service where
  | ec2 | s3 | dynamodb | rds | lambdaSvc
  deriving DecidableEq, Repr

/-- `service in SUPPORTED` / `SUPPORTED[service]` (source lines 200, 210):
which handler a (already normalized) service string resolves to. -/
def lookupService (s : String) : Option Service :=
  if s = "ec2" then some .ec2
  else if s = "s3" then some .s3
  else if s = "dynamodb" then some .dynamodb
  else if s = "rds" then some .rds
  else if s = "lambda" then some .lambdaSvc
  else none

/-- `sorted(SUPPORTED.keys())` (source lines 192, 203). -/
def supportedSorted : List String :=
  ["dynamodb", "ec2", "lambda", "rds", "s3"]

/-- The message of the unsupported-service failure (source lines 201-204). -/
def unsupportedMsg (service : String) : String :=
  "Unsupported service \x27" ++ service ++ "\x27. Supported: " ++
    String.intercalate ", " supportedSorted

/-- The stderr line written by `fail(msg, ...)` (source line 65):
`f"Error: {msg}"`. -/
def failLine (msg : String) : String :=
  "Error: " ++ msg

/-- Outcome of `boto3.Session(...)` inside `get_session`
(source lines 68-76). -/
inductive SessionResult where
  /-- Construction succeeded. -/
  | ok : SessionResult
  /-- `NoRegionError` was raised; `strForm` is `str(e)`. -/
  | noRegion (strForm : String) : SessionResult
  /-- Some other exception was raised; `strForm` is `str(e)`. -/
  | otherFail (strForm : String) : SessionResult
  deriving DecidableEq, Repr

/-- The `"Error"` sub-dictionary of a `ClientError` response. -/
structure ClientErrorInfo where
  code : Option String
  message : Option String
  deriving DecidableEq, Repr

/-- Outcome of running the matched handler (source line 210): either it
completes, or it raises one of the exceptions that `main` catches
(source lines 212-229). -/
inductive HandlerOutcome where
  /-- The handler returned normally. -/
  | ok : HandlerOutcome
  /-- `NoCredentialsError`. -/
  | noCredentials : HandlerOutcome
  /-- `PartialCredentialsError`. -/
  | partialCredentials : HandlerOutcome
  /-- `EndpointConnectionError`; `strForm` is `str(e)`. -/
  | endpointConnErr (strForm : String) : HandlerOutcome
  /-- `UnknownServiceError`. -/
  | unknownService : HandlerOutcome
  /-- `ClientError`; `info` is `e.response.get("Error", {})` (`none` when the
  key is absent) and `strForm` is `str(e)`. -/
  | clientError (info : Option ClientErrorInfo) (strForm : String) : HandlerOutcome
  /-- `ParamValidationError`; `strForm` is `str(e)`. -/
  | paramValidation (strForm : String) : HandlerOutcome
  /-- `KeyboardInterrupt`. -/
  | keyboardInterrupt : HandlerOutcome
  /-- Any other exception; `strForm` is `str(e)`. -/
  | unexpected (strForm : String) : HandlerOutcome
  deriving DecidableEq, Repr

/-- The oracle for one run: how session construction turns out for given
profile/region arguments, and how each handler invocation turns out. -/
structure World where
  session : Option String → String → SessionResult
  handler : Service → String → HandlerOutcome

/-- Observable result of one run of `main`: the process exit code, the lines
written to stderr, and the session/handler calls that were made (with their
arguments), `none` when the run ended before reaching them. -/
structure RunResult where
  exitCode : Nat
  errLines : List String
  sessionCall : Option (Option String × String)
  handlerCall : Option (Service × String)
  deriving DecidableEq, Repr

/-- `main` (source lines 188-229) after argument parsing, as a function of
the raw `service` and `region` argument strings, the optional profile, and
the oracle `World`.  `fail(msg, code)` (source lines 64-66) becomes the line
`"Error: " ++ msg` on stderr together with exit code `code`. -/
def runMain (serviceArg regionArg : String) (profile : Option String)
    (w : World) : RunResult :=
  let service := pyStrip (pyLower serviceArg)
  let region := pyStrip regionArg
  match lookupService service with
  | none =>
    { exitCode := 1, errLines := [failLine (unsupportedMsg service)],
      sessionCall := none, handlerCall := none }
  | some svc =>
    match w.session profile region with
    | .noRegion strForm =>
      { exitCode := 1, errLines := [failLine strForm],
        sessionCall := some (profile, region), handlerCall := none }
    | .otherFail strForm =>
      { exitCode := 1,
        errLines := [failLine ("Failed to initialize AWS session: " ++ strForm)],
        sessionCall := some (profile, region), handlerCall := none }
    | .ok =>
      let sc := some (profile, region)
      let hc := some (svc, region)
      match w.handler svc region with
      | .ok =>
        { exitCode := 0, errLines := [], sessionCall := sc, handlerCall := hc }
      | .noCredentials =>
        { exitCode := 1,
          errLines := [failLine "No AWS credentials found. Configure credentials via environment variables or AWS config files."],
          sessionCall := sc, handlerCall := hc }
      | .partialCredentials =>
        { exitCode := 1,
          errLines := [failLine "Partial AWS credentials found. Please complete your AWS credential configuration."],
          sessionCall := sc, handlerCall := hc }
      | .endpointConnErr strForm =>
        { exitCode := 1,
          errLines := [failLine ("Could not connect to endpoint for region \x27" ++
            region ++ "\x27. Is the region correct? Details: " ++ strForm)],
          sessionCall := sc, handlerCall := hc }
      | .unknownService =>
        { exitCode := 1,
          errLines := [failLine ("The AWS SDK does not recognize service \x27" ++
            service ++ "\x27.")],
          sessionCall := sc, handlerCall := hc }
      | .clientError info strForm =>
        let errDict := info.getD { code := none, message := none }
        { exitCode := 1,
          errLines := [failLine ("AWS API error (" ++ errDict.code.getD "Unknown" ++
            "): " ++ errDict.message.getD strForm)],
          sessionCall := sc, handlerCall := hc }
      | .paramValidation strForm =>
        { exitCode := 1,
          errLines := [failLine ("Invalid parameter(s): " ++ strForm)],
          sessionCall := sc, handlerCall := hc }
      | .keyboardInterrupt =>
        { exitCode := 130, errLines := [failLine "Interrupted by user."],
          sessionCall := sc, handlerCall := hc }
      | .unexpected strForm =>
        { exitCode := 1,
          errLines := [failLine ("Unexpected error: " ++ strForm)],
          sessionCall := sc, handlerCall := hc }

/-! ### Specification-side definitions

These definitions follow the wording of the specification; the theorems below
compare them with the embedded source functions. -/

/-- Pure pointwise form of one pass of the width loop: the new width of each
column is the maximum of the old width and the cell length. -/
def maxList : List Nat → List String → List Nat
  | ws, [] => ws
  | w :: ws, c :: cs => max w c.length :: maxList ws cs
  | [], _ :: _ => []

/-- Column width as the spec words it: the maximum of that column's header
length and the lengths of every row's cell in that column. -/
def specColWidth (headers : List String) (rows : List (List String))
    (i : Nat) : Nat :=
  max (headers.getD i "").length
    ((rows.map (fun r => (r.getD i "").length)).foldr max 0)

/-- The spec-side width list: `specColWidth` for each column. -/
def specWidths (headers : List String) (rows : List (List String)) : List Nat :=
  (List.range headers.length).map (specColWidth headers rows)

/-- Name extraction as the spec words it: the value of the first tag whose
key is exactly `"Name"`, or the empty string when no such tag exists. -/
def specFirstNameTag (tags : List Ec2Tag) : String :=
  match tags.find? (fun t => t.key == some "Name") with
  | some t => t.value.getD ""
  | none => ""

/-- An oracle world in which session construction and every handler
invocation succeed. -/
def wOkAll : World :=
  { session := fun _ _ => .ok, handler := fun _ _ => .ok }

/-- An oracle world in which session construction raises `NoRegionError`
(no region could be determined). -/
def wNoRegionAll : World :=
  { session := fun _ _ => .noRegion "You must specify a region.",
    handler := fun _ _ => .ok }

/-! ## Theorems -/

/-! ### Width-loop lemmas -/

/-- One `updRow` pass completes when the row has at most as many cells as
there are widths, and computes the pointwise maxima. -/
theorem updRow_eq_maxList (r : List String) : ∀ ws : List Nat,
    r.length ≤ ws.length → updRow ws r = some (maxList ws r) := by
  induction r with
  | nil => intro ws _; cases ws <;> rfl
  | cons c cs ih =>
    intro ws h
    cases ws with
    | nil => simp at h
    | cons w ws' =>
      simp only [updRow, maxList, ih ws' (by simpa using h)]
      rfl

/-- One `updRow` pass raises `IndexError` when the row is longer than the
width list. -/
theorem updRow_eq_none (r : List String) : ∀ ws : List Nat,
    ws.length < r.length → updRow ws r = none := by
  induction r with
  | nil => intro ws h; simp at h
  | cons c cs ih =>
    intro ws h
    cases ws with
    | nil => rfl
    | cons w ws' =>
      simp only [updRow, ih ws' (by simpa using h)]
      rfl

/-- The pointwise width update preserves the number of columns. -/
theorem maxList_length (r : List String) : ∀ ws : List Nat,
    r.length ≤ ws.length → (maxList ws r).length = ws.length := by
  induction r with
  | nil => intro ws _; cases ws <;> rfl
  | cons c cs ih =>
    intro ws h
    cases ws with
    | nil => simp at h
    | cons w ws' => simp [maxList, ih ws' (by simpa using h)]

/-- Entrywise description of the pointwise width update. -/
theorem maxList_getD (r : List String) : ∀ (ws : List Nat) (i : Nat),
    r.length = ws.length →
    (maxList ws r).getD i 0 = max (ws.getD i 0) (r.getD i "").length := by
  induction r with
  | nil =>
    intro ws i h
    cases ws with
    | nil => simp [maxList]
    | cons w ws' => simp at h
  | cons c cs ih =>
    intro ws i h
    cases ws with
    | nil => simp at h
    | cons w ws' =>
      cases i with
      | zero => simp [maxList]
      | succ j => simpa [maxList] using ih ws' j (by simpa using h)

/-- The width loop completes on rows that all match the width-list length,
and computes the fold of the pointwise maxima. -/
theorem widthLoop_eq_foldl (rows : List (List String)) : ∀ ws : List Nat,
    (∀ r ∈ rows, r.length = ws.length) →
    widthLoop ws rows = some (rows.foldl maxList ws) := by
  induction rows with
  | nil => intro ws _; rfl
  | cons r rs ih =>
    intro ws h
    have hr : r.length = ws.length := h r (List.mem_cons_self _ _)
    have hlen : (maxList ws r).length = ws.length :=
      maxList_length r ws hr.le
    simp only [widthLoop, updRow_eq_maxList r ws hr.le, Option.bind_some,
      List.foldl_cons]
    exact ih (maxList ws r) (fun x hx => (h x (List.mem_cons_of_mem _ hx)).trans
      hlen.symm)

/-- The folded widths keep the number of columns. -/
theorem foldl_maxList_length (rows : List (List String)) : ∀ ws : List Nat,
    (∀ r ∈ rows, r.length = ws.length) →
    (rows.foldl maxList ws).length = ws.length := by
  induction rows with
  | nil => intro ws _; rfl
  | cons r rs ih =>
    intro ws h
    have hr : r.length = ws.length := h r (List.mem_cons_self _ _)
    have hlen : (maxList ws r).length = ws.length := maxList_length r ws hr.le
    simp only [List.foldl_cons]
    rw [ih (maxList ws r) (fun x hx => (h x (List.mem_cons_of_mem _ hx)).trans
      hlen.symm), hlen]

/-- Entrywise description of the folded widths: each entry is the max of the
initial entry and all cell lengths of that column. -/
theorem foldl_maxList_getD (rows : List (List String)) : ∀ (ws : List Nat) (i : Nat),
    (∀ r ∈ rows, r.length = ws.length) →
    (rows.foldl maxList ws).getD i 0 =
      max (ws.getD i 0) ((rows.map (fun r => (r.getD i "").length)).foldr max 0) := by
  induction rows with
  | nil => intro ws i _; simp
  | cons r rs ih =>
    intro ws i h
    have hr : r.length = ws.length := h r (List.mem_cons_self _ _)
    have hlen : (maxList ws r).length = ws.length := maxList_length r ws hr.le
    simp only [List.foldl_cons, List.map_cons, List.foldr_cons]
    rw [ih (maxList ws r) i (fun x hx => (h x (List.mem_cons_of_mem _ hx)).trans
      hlen.symm), maxList_getD r ws i hr, Nat.max_assoc]

/-- The width loop raises `IndexError` when some row is longer than the
width list. -/
theorem widthLoop_eq_none (rows : List (List String)) : ∀ ws : List Nat,
    (∃ r ∈ rows, ws.length < r.length) → widthLoop ws rows = none := by
  induction rows with
  | nil => intro ws h; simp at h
  | cons r rs ih =>
    intro ws h
    by_cases hr : ws.length < r.length
    · simp [widthLoop, updRow_eq_none r ws hr]
    · have hle : r.length ≤ ws.length := Nat.le_of_not_lt hr
      have hlen : (maxList ws r).length = ws.length := maxList_length r ws hle
      obtain ⟨x, hx, hxl⟩ := h
      rcases List.mem_cons.1 hx with rfl | hx'
      · exact absurd hxl hr
      · simp only [widthLoop, updRow_eq_maxList r ws hle, Option.bind_some]
        exact ih (maxList ws r) ⟨x, hx', by rwa [hlen]⟩

/-- The width loop completes whenever no row is longer than the width list,
keeping the number of columns. -/
theorem widthLoop_isSome_of_le (rows : List (List String)) : ∀ ws : List Nat,
    (∀ r ∈ rows, r.length ≤ ws.length) →
    ∃ W, widthLoop ws rows = some W ∧ W.length = ws.length := by
  induction rows with
  | nil => intro ws _; exact ⟨ws, rfl, rfl⟩
  | cons r rs ih =>
    intro ws h
    have hr : r.length ≤ ws.length := h r (List.mem_cons_self _ _)
    have hlen : (maxList ws r).length = ws.length := maxList_length r ws hr
    obtain ⟨W, hW, hWl⟩ := ih (maxList ws r)
      (fun x hx => (h x (List.mem_cons_of_mem _ hx)).trans hlen.ge)
    exact ⟨W, by simp [widthLoop, updRow_eq_maxList r ws hr, hW], hWl.trans hlen⟩

/-- The length of the spec-side width list. -/
theorem specWidths_length (headers : List String) (rows : List (List String)) :
    (specWidths headers rows).length = headers.length := by
  simp [specWidths]

/-- `computeWidths` computes exactly the spec-side widths when every row has
as many cells as there are headers. -/
theorem computeWidths_eq_specWidths (rows : List (List String))
    (headers : List String) (hlen : ∀ r ∈ rows, r.length = headers.length) :
    computeWidths headers rows = some (specWidths headers rows) := by
  have hinit : (headers.map String.length).length = headers.length :=
    List.length_map _ _
  have h1 : widthLoop (headers.map String.length) rows =
      some (rows.foldl maxList (headers.map String.length)) :=
    widthLoop_eq_foldl rows _ (fun r hr => (hlen r hr).trans hinit.symm)
  have hfl : (rows.foldl maxList (headers.map String.length)).length =
      headers.length :=
    (foldl_maxList_length rows _ (fun r hr => (hlen r hr).trans hinit.symm)).trans
      hinit
  rw [computeWidths, h1]
  congr 1
  refine List.ext_getElem (hfl.trans (specWidths_length headers rows).symm) ?_
  intro i h₁ h₂
  have hi : i < headers.length := by rwa [hfl] at h₁
  rw [← List.getD_eq_getElem _ 0 h₁, ← List.getD_eq_getElem _ 0 h₂]
  rw [foldl_maxList_getD rows _ i (fun r hr => (hlen r hr).trans hinit.symm)]
  have hmap : (headers.map String.length).getD i 0 = (headers.getD i "").length :=
    List.getD_map headers "" String.length
  rw [hmap, List.getD_eq_getElem _ _ h₂]
  have hspec : (specWidths headers rows)[i] = specColWidth headers rows i := by
    simp [specWidths, List.getElem_map, List.getElem_range]
  rw [hspec]
  rfl

/-! ### Rendering-loop lemmas -/

/-- The header line completes when there are at least as many widths as
headers, pairing each header with its width. -/
theorem headerCells_eq (hs : List String) : ∀ ws : List Nat,
    hs.length ≤ ws.length →
    headerCells hs ws = some (List.zipWith ljust hs ws) := by
  induction hs with
  | nil => intro ws _; rfl
  | cons h hs' ih =>
    intro ws hle
    cases ws with
    | nil => simp at hle
    | cons w ws' => simp [headerCells, ih ws' (by simpa using hle),
        List.zipWith]

/-- The separator line completes when asked for exactly as many dash runs as
there are widths. -/
theorem sepCells_eq : ∀ ws : List Nat,
    sepCells ws.length ws = some (ws.map (repChar '-')) := by
  intro ws
  induction ws with
  | nil => rfl
  | cons w ws' ih => simp [sepCells, ih]

/-- One data-row line completes when the row has exactly as many cells as
requested and enough widths exist, pairing each cell with its width. -/
theorem rowCells_eq (r : List String) : ∀ ws : List Nat,
    r.length ≤ ws.length →
    rowCells r.length r ws = some (List.zipWith ljust r ws) := by
  induction r with
  | nil => intro ws _; rfl
  | cons c cs ih =>
    intro ws hle
    cases ws with
    | nil => simp at hle
    | cons w ws' => simp [rowCells, ih ws' (by simpa using hle), List.zipWith]

/-- A data row shorter than the requested number of cells raises
`IndexError`. -/
theorem rowCells_eq_none : ∀ (n : Nat) (r : List String) (ws : List Nat),
    r.length < n → rowCells n r ws = none := by
  intro n
  induction n with
  | zero => intro r ws h; simp at h
  | succ m ih =>
    intro r ws h
    cases r with
    | nil => rfl
    | cons c cs =>
      cases ws with
      | nil => rfl
      | cons w ws' => simp [rowCells, ih cs ws' (by simpa using h)]

/-- The row-printing loop completes when every row has exactly as many cells
as there are headers and the widths agree. -/
theorem renderRows_eq (n : Nat) (ws : List Nat) (hws : ws.length = n) :
    ∀ rows : List (List String), (∀ r ∈ rows, r.length = n) →
    renderRows n ws rows = some (rows.map (fun r =>
      String.intercalate " | " (List.zipWith ljust r ws))) := by
  intro rows
  induction rows with
  | nil => intro _; rfl
  | cons r rs ih =>
    intro h
    have hr : r.length = n := h r (List.mem_cons_self _ _)
    have hcells : rowCells n r ws = some (List.zipWith ljust r ws) := by
      rw [← hr]
      exact rowCells_eq r ws (by rw [hws, hr])
    simp [renderRows, hcells, ih (fun x hx => h x (List.mem_cons_of_mem _ hx))]

/-- The row-printing loop raises `IndexError` when some row is shorter than
the header count (and no row is longer). -/
theorem renderRows_eq_none (n : Nat) (ws : List Nat) :
    ∀ rows : List (List String), (∃ r ∈ rows, r.length < n) →
    renderRows n ws rows = none := by
  intro rows
  induction rows with
  | nil => intro h; simp at h
  | cons r rs ih =>
    intro h
    by_cases hr : r.length < n
    · simp [renderRows, rowCells_eq_none n r ws hr]
    · obtain ⟨x, hx, hxl⟩ := h
      rcases List.mem_cons.1 hx with rfl | hx'
      · exact absurd hxl hr
      · cases hc : rowCells n r ws with
        | none => simp [renderRows, hc]
        | some cs => simp [renderRows, hc, ih ⟨x, hx', hxl⟩]

/-- `print_table` on a non-empty row list whose rows all match the header
count: the header line, the separator line, then one line per row, all laid
out with the spec-side widths. -/
theorem print_table_complete (rows : List (List String)) (headers : List String)
    (hne : rows ≠ []) (hlen : ∀ r ∈ rows, r.length = headers.length) :
    print_table rows headers = some (
      String.intercalate " | "
        (List.zipWith ljust headers (specWidths headers rows)) ::
      String.intercalate "-+-" ((specWidths headers rows).map (repChar '-')) ::
      rows.map (fun r => String.intercalate " | "
        (List.zipWith ljust r (specWidths headers rows)))) := by
  have hW := computeWidths_eq_specWidths rows headers hlen
  have hWlen := specWidths_length headers rows
  have hh := headerCells_eq headers (specWidths headers rows) hWlen.ge
  have hs : sepCells headers.length (specWidths headers rows) =
      some ((specWidths headers rows).map (repChar '-')) := by
    rw [← hWlen]; exact sepCells_eq _
  have hr := renderRows_eq headers.length (specWidths headers rows) hWlen rows hlen
  cases rows with
  | nil => exact absurd rfl hne
  | cons r rs => simp [print_table, hW, hh, hs, hr]

/-- C5: for a non-empty row list whose rows match the header count,
`print_table` computes each column's width as the maximum of the header
length and every cell length in that column, then prints the left-justified
header row joined by `" | "`, the dash separator joined by `"-+-"`, and each
data row left-justified to the same widths, fields paired with headers in
order. -/
theorem c5_table_layout (rows : List (List String)) (headers : List String)
    (hne : rows ≠ []) (hlen : ∀ r ∈ rows, r.length = headers.length) :
    computeWidths headers rows = some (specWidths headers rows) ∧
    (∀ i, i < headers.length → (specWidths headers rows).getD i 0 =
      max (headers.getD i "").length
        ((rows.map (fun r => (r.getD i "").length)).foldr max 0)) ∧
    print_table rows headers = some (
      String.intercalate " | "
        (List.zipWith ljust headers (specWidths headers rows)) ::
      String.intercalate "-+-" ((specWidths headers rows).map (repChar '-')) ::
      rows.map (fun r => String.intercalate " | "
        (List.zipWith ljust r (specWidths headers rows)))) := by
  refine ⟨computeWidths_eq_specWidths rows headers hlen, ?_,
    print_table_complete rows headers hne hlen⟩
  intro i hi
  have hip : i < ((List.range headers.length).map
      (specColWidth headers rows)).length := by simpa using hi
  rw [specWidths, List.getD_eq_getElem _ _ hip]
  simp [List.getElem_map, List.getElem_range, specColWidth]

/-- C5 witness: a concrete two-column table; the first column is governed by
its widest cell, the second by its header. -/
theorem c5_table_layout_witness :
    ([["i-1", "run"], ["i-22", "st"]] ≠ ([] : List (List String))) ∧
    ((∀ r ∈ [["i-1", "run"], ["i-22", "st"]],
      r.length = ["Id", "State"].length) ∧
    print_table [["i-1", "run"], ["i-22", "st"]] ["Id", "State"] =
      some ["Id   | State", "-----+------", "i-1  | run  ", "i-22 | st   "]) := by
  have h := c5_table_layout [["i-1", "run"], ["i-22", "st"]] ["Id", "State"]
    (by decide) (by decide)
  exact ⟨by decide, by decide, h.2.2.trans (by rfl)⟩

/-- C10: `print_table` on a non-empty row list is total exactly under the
precondition that every row matches the header count: matching rows render
with one cell per header; a row longer than the headers makes the width
computation raise; rows only shorter make the width computation succeed but
the row printing raise. -/
theorem c10_print_table_totality (rows : List (List String))
    (headers : List String) (hne : rows ≠ []) :
    ((∀ r ∈ rows, r.length = headers.length) →
      print_table rows headers = some (
        String.intercalate " | "
          (List.zipWith ljust headers (specWidths headers rows)) ::
        String.intercalate "-+-"
          ((specWidths headers rows).map (repChar '-')) ::
        rows.map (fun r => String.intercalate " | "
          (List.zipWith ljust r (specWidths headers rows)))) ∧
      (∀ r ∈ rows,
        (List.zipWith ljust r (specWidths headers rows)).length =
          headers.length)) ∧
    ((∃ r ∈ rows, headers.length < r.length) →
      computeWidths headers rows = none ∧ print_table rows headers = none) ∧
    ((∀ r ∈ rows, r.length ≤ headers.length) →
      (∃ r ∈ rows, r.length < headers.length) →
      (∃ W, computeWidths headers rows = some W) ∧
        print_table rows headers = none) := by
  have hinit : (headers.map String.length).length = headers.length :=
    List.length_map _ _
  refine ⟨?_, ?_, ?_⟩
  · intro hlen
    refine ⟨print_table_complete rows headers hne hlen, ?_⟩
    intro r hr
    rw [List.length_zipWith, specWidths_length, hlen r hr, Nat.min_self]
  · intro hlong
    have hw : computeWidths headers rows = none := by
      rw [computeWidths]
      exact widthLoop_eq_none rows _ (by
        obtain ⟨r, hr, hl⟩ := hlong
        exact ⟨r, hr, by rwa [hinit]⟩)
    refine ⟨hw, ?_⟩
    cases rows with
    | nil => exact absurd rfl hne
    | cons r rs => simp [print_table, hw]
  · intro hle hshort
    obtain ⟨W, hW, hWlen⟩ := widthLoop_isSome_of_le rows
      (headers.map String.length)
      (fun r hr => (hle r hr).trans hinit.ge)
    have hWlen' : W.length = headers.length := hWlen.trans hinit
    have hw : computeWidths headers rows = some W := hW
    have hh := headerCells_eq headers W hWlen'.ge
    have hs : sepCells headers.length W = some (W.map (repChar '-')) := by
      rw [← hWlen']; exact sepCells_eq _
    have hr := renderRows_eq_none headers.length W rows hshort
    refine ⟨⟨W, hw⟩, ?_⟩
    cases rows with
    | nil => exact absurd rfl hne
    | cons r rs => simp [print_table, hw, hh, hs, hr]

/-- C10 witness: `[["a", "b"], ["c"]]` against two headers — the width
computation succeeds but row printing fails on the short row; and
`[["a", "b", "c"]]` against the same headers fails already during width
computation. -/
theorem c10_print_table_totality_witness :
    ([["a", "b"], ["c"]] ≠ ([] : List (List String))) ∧
    ((∃ W, computeWidths ["H1", "H2"] [["a", "b"], ["c"]] = some W) ∧
      print_table [["a", "b"], ["c"]] ["H1", "H2"] = none) ∧
    (computeWidths ["H1", "H2"] [["a", "b", "c"]] = none ∧
      print_table [["a", "b", "c"]] ["H1", "H2"] = none) := by
  refine ⟨by decide, ?_, ?_⟩
  · exact (c10_print_table_totality [["a", "b"], ["c"]] ["H1", "H2"]
      (by decide)).2.2 (by decide) ⟨["c"], by decide, by decide⟩
  · exact (c10_print_table_totality [["a", "b", "c"]] ["H1", "H2"]
      (by decide)).2.1 ⟨["a", "b", "c"], by decide, by decide⟩

/-- The `Name`-tag loop of `list_ec2` computes the spec-side description:
the value of the first tag whose key is exactly `"Name"`, else `""`. -/
theorem nameTagLoop_eq_spec (tags : List Ec2Tag) :
    nameTagLoop tags = specFirstNameTag tags := by
  induction tags with
  | nil => rfl
  | cons t ts ih =>
    by_cases hk : t.key = some "Name"
    · simp [nameTagLoop, specFirstNameTag, List.find?_cons, hk]
    · simp [nameTagLoop, specFirstNameTag, List.find?_cons, hk, ih,
        specFirstNameTag]

/-- C6: for every title and header list, with an empty row list the rendered
section is exactly the boxed title header (a line of `=` as long as the
title, the title, the same `=` line again) followed by the single line
`(no resources found)`; no header row, separator, or table follows. -/
theorem c6_empty_rows_render (title : String) (headers : List String) :
    renderSection title [] headers =
      some [repChar '=' title.length, title, repChar '=' title.length,
        "(no resources found)"] := rfl

/-- C1: in the s3 handler, a listed bucket whose location query reports no
location constraint resolves to `us-east-1`; a bucket is included in the
rows exactly when its resolved location equals the requested region; and a
bucket whose location query raises `ClientError` is omitted from the rows
(the handler emits no error output) while the remaining buckets are still
processed. -/
theorem c1_s3_region_filter (region : String) (buckets : List S3Bucket)
    (h : ∀ b ∈ buckets, b.loc ≠ .otherErr) :
    resolveLoc none = "us-east-1" ∧
    s3BucketLoop region buckets = .ok ((buckets.filter (fun b =>
        match b.loc with
        | .ok c => resolveLoc c == region
        | _ => false)).map
      (fun b => [b.name, region, human_ts b.creationDate])) := by
  refine ⟨rfl, ?_⟩
  induction buckets with
  | nil => rfl
  | cons b bs ih =>
    have hb : b.loc ≠ .otherErr := h b (List.mem_cons_self _ _)
    have hrest := ih (fun x hx => h x (List.mem_cons_of_mem _ hx))
    cases hloc : b.loc with
    | clientErr => simp [s3BucketLoop, hloc, List.filter_cons, hrest]
    | otherErr => exact absurd hloc hb
    | ok c =>
      by_cases hc : resolveLoc c = region
      · simp [s3BucketLoop, hloc, hrest, List.filter_cons, hc, Except.map]
      · simp [s3BucketLoop, hloc, hrest, List.filter_cons, hc, Except.map]

/-- C1 witness: three concrete buckets — one with no location constraint
(kept when the requested region is `us-east-1`), one whose location query is
denied (skipped), one in another region (filtered out). -/
theorem c1_s3_region_filter_witness :
    (∀ b ∈ [(⟨"b1", .missing, .ok none⟩ : S3Bucket),
        ⟨"b2", .missing, .clientErr⟩, ⟨"b3", .missing, .ok (some "eu-west-1")⟩],
      b.loc ≠ .otherErr) ∧
    resolveLoc none = "us-east-1" ∧
    s3BucketLoop "us-east-1" [⟨"b1", .missing, .ok none⟩,
        ⟨"b2", .missing, .clientErr⟩, ⟨"b3", .missing, .ok (some "eu-west-1")⟩] =
      .ok [["b1", "us-east-1", "None"]] := by
  have h := c1_s3_region_filter "us-east-1"
    [⟨"b1", .missing, .ok none⟩, ⟨"b2", .missing, .clientErr⟩,
      ⟨"b3", .missing, .ok (some "eu-west-1")⟩] (by decide)
  exact ⟨by decide, h.1, h.2.trans (by rfl)⟩

/-- C2: in the dynamodb handler, every table name from the paginated listing
appears in the output, in order: a table whose describe call raises
`ClientError` appears as `[name, "(access denied)", "", ""]` while the
remaining tables are still processed, and a table whose describe succeeds
appears with its status, item count, and size in bytes. -/
theorem c2_dynamodb_partial_failure (pages : List DdbPage)
    (h : ∀ t ∈ ddbTablesOf pages, t.describe ≠ .otherErr) :
    ddbTableLoop (ddbTablesOf pages) = .ok ((ddbTablesOf pages).map (fun t =>
      match t.describe with
      | .ok st items size =>
        [t.name, st.getD "", strOptInt items, strOptInt size]
      | _ => [t.name, "(access denied)", "", ""])) := by
  generalize ddbTablesOf pages = ts at h
  induction ts with
  | nil => rfl
  | cons t ts ih =>
    have ht : t.describe ≠ .otherErr := h t (List.mem_cons_self _ _)
    have hrest := ih (fun x hx => h x (List.mem_cons_of_mem _ hx))
    cases hd : t.describe with
    | ok st items size => simp [ddbTableLoop, hd, hrest, Except.map]
    | clientErr => simp [ddbTableLoop, hd, hrest, Except.map]
    | otherErr => exact absurd hd ht

/-- C2 witness: one page with a successfully described table followed by a
denied one; both rows appear, the denied one with the
`(access denied)` status literal and empty fields. -/
theorem c2_dynamodb_partial_failure_witness :
    (∀ t ∈ ddbTablesOf [⟨some [⟨"t1", .ok (some "ACTIVE") (some 5) (some 100)⟩,
        ⟨"t2", .clientErr⟩]⟩], t.describe ≠ .otherErr) ∧
    ddbTableLoop (ddbTablesOf [⟨some [⟨"t1", .ok (some "ACTIVE") (some 5) (some 100)⟩,
        ⟨"t2", .clientErr⟩]⟩]) =
      .ok [["t1", "ACTIVE", "5", "100"], ["t2", "(access denied)", "", ""]] := by
  refine ⟨by decide, ?_⟩
  have := c2_dynamodb_partial_failure
    [⟨some [⟨"t1", .ok (some "ACTIVE") (some 5) (some 100)⟩, ⟨"t2", .clientErr⟩]⟩]
    (by decide)
  simpa using this

/-- C7: in the ec2 handler, the emitted name field of every instance row is
the value of the first tag whose key is exactly `"Name"` (empty when no such
tag exists), and the emitted launch cell is `human_ts` of the launch
timestamp: `YYYY-MM-DD HH:MM:SS` for a well-formed datetime, the raw string
form when the timestamp is missing or malformed. -/
theorem c7_ec2_name_and_timestamp (inst : Ec2Instance) :
    (ec2Row inst).getD 5 "" = specFirstNameTag (inst.tags.getD []) ∧
    (ec2Row inst).getD 4 "" = human_ts inst.launchTime ∧
    (∀ y mo d hh mi s, human_ts (.dt y mo d hh mi s) =
      pad4 y ++ "-" ++ pad2 mo ++ "-" ++ pad2 d ++ " " ++
        pad2 hh ++ ":" ++ pad2 mi ++ ":" ++ pad2 s) ∧
    human_ts .missing = "None" ∧
    (∀ s, human_ts (.mal s) = s) := by
  refine ⟨?_, rfl, fun _ _ _ _ _ _ => rfl, rfl, fun _ => rfl⟩
  exact nameTagLoop_eq_spec (inst.tags.getD [])

/-- C3: a service string whose lowercased, trimmed form is not a supported
key fails with exit code 1 and a message enumerating the supported set,
before any session is created; a string whose normalized form is supported
resolves to the corresponding handler, which is the one invoked. -/
theorem c3_dispatch_closed_set (serviceArg regionArg : String)
    (profile : Option String) (w : World) :
    (∀ s : String, (lookupService s).isSome ↔ s ∈ supportedSorted) ∧
    (∀ s : String, unsupportedMsg s =
      "Unsupported service \x27" ++ s ++ "\x27. Supported: " ++
        "dynamodb, ec2, lambda, rds, s3") ∧
    (lookupService (pyStrip (pyLower serviceArg)) = none →
      runMain serviceArg regionArg profile w =
        { exitCode := 1,
          errLines := [failLine (unsupportedMsg (pyStrip (pyLower serviceArg)))],
          sessionCall := none, handlerCall := none }) ∧
    (∀ svc, lookupService (pyStrip (pyLower serviceArg)) = some svc →
      w.session profile (pyStrip regionArg) = .ok →
      (runMain serviceArg regionArg profile w).handlerCall =
        some (svc, pyStrip regionArg)) := by
  refine ⟨?_, fun _ => rfl, ?_, ?_⟩
  · intro s
    simp only [lookupService, supportedSorted, List.mem_cons, List.not_mem_nil]
    split_ifs <;> simp_all
  · intro h
    simp [runMain, h]
  · intro svc hsvc hsess
    cases hh : w.handler svc (pyStrip regionArg) <;>
      simp [runMain, hsvc, hsess, hh]

/-- C3 witness: the string `"0xF "` normalizes to `"0xf"`, which is not a
supported key: the run exits with code 1, the enumerating message, and no
session call; and `"  EC2"` normalizes to a supported key whose handler is
invoked. -/
theorem c3_dispatch_closed_set_witness :
    lookupService (pyStrip (pyLower "0xF ")) = none ∧
    runMain "0xF " "us-east-1" none wOkAll =
      { exitCode := 1,
        errLines := [failLine (unsupportedMsg (pyStrip (pyLower "0xF ")))],
        sessionCall := none, handlerCall := none } ∧
    (runMain "  EC2" "us-east-1" none wOkAll).handlerCall =
      some (.ec2, "us-east-1") := by
  refine ⟨by decide, (c3_dispatch_closed_set "0xF " "us-east-1" none wOkAll).2.2.1
    (by decide), ?_⟩
  have h := (c3_dispatch_closed_set "  EC2" "us-east-1" none wOkAll).2.2.2
    .ec2 (by decide) rfl
  exact h.trans (by decide)

/-- C4: every stderr line of a run begins with `Error: `; the exit code is
130 exactly when the invoked handler raised `KeyboardInterrupt`, 0 exactly
when the invoked handler completed, and every run exits with code 0, 1, or
130 (so every classified failure other than an interrupt yields 1). -/
theorem c4_exit_codes (serviceArg regionArg : String) (profile : Option String)
    (w : World) :
    (∀ m, failLine m = "Error: " ++ m) ∧
    (∀ l ∈ (runMain serviceArg regionArg profile w).errLines,
      ∃ m, l = failLine m) ∧
    ((runMain serviceArg regionArg profile w).exitCode = 130 ↔
      ∃ svc r, (runMain serviceArg regionArg profile w).handlerCall =
          some (svc, r) ∧ w.handler svc r = .keyboardInterrupt) ∧
    ((runMain serviceArg regionArg profile w).exitCode = 0 ↔
      ∃ svc r, (runMain serviceArg regionArg profile w).handlerCall =
          some (svc, r) ∧ w.handler svc r = .ok) ∧
    ((runMain serviceArg regionArg profile w).exitCode = 0 ∨
      (runMain serviceArg regionArg profile w).exitCode = 1 ∨
      (runMain serviceArg regionArg profile w).exitCode = 130) := by
  refine ⟨fun _ => rfl, ?_⟩
  cases hl : lookupService (pyStrip (pyLower serviceArg)) with
  | none => refine ⟨?_, ?_, ?_, ?_⟩ <;> simp [runMain, hl]
  | some svc =>
    cases hs : w.session profile (pyStrip regionArg) with
    | noRegion m => refine ⟨?_, ?_, ?_, ?_⟩ <;> simp [runMain, hl, hs]
    | otherFail m => refine ⟨?_, ?_, ?_, ?_⟩ <;> simp [runMain, hl, hs]
    | ok =>
      cases hh : w.handler svc (pyStrip regionArg) <;>
        (refine ⟨?_, ?_, ?_, ?_⟩ <;> simp [runMain, hl, hs, hh] <;>
          exact ⟨svc, pyStrip regionArg, ⟨rfl, rfl⟩, hh⟩)

/-- C4 witness: an interrupted handler yields exit code 130. -/
theorem c4_exit_codes_witness :
    (∀ l ∈ (runMain "s3" "us-east-1" none
        { session := fun _ _ => .ok,
          handler := fun _ _ => .keyboardInterrupt }).errLines,
      ∃ m, l = failLine m) ∧
    (runMain "s3" "us-east-1" none
      { session := fun _ _ => .ok,
        handler := fun _ _ => .keyboardInterrupt }).exitCode = 130 := by
  have h := c4_exit_codes "s3" "us-east-1" none
    { session := fun _ _ => .ok, handler := fun _ _ => .keyboardInterrupt }
  exact ⟨h.2.1, h.2.2.1.mpr ⟨.s3, "us-east-1", by decide, rfl⟩⟩

/-- `dropWhile` is idempotent. -/
theorem dropWhile_idem (p : Char → Bool) (l : List Char) :
    (l.dropWhile p).dropWhile p = l.dropWhile p := by
  induction l with
  | nil => rfl
  | cons a l ih =>
    by_cases ha : p a
    · rw [List.dropWhile_cons_of_pos ha]; exact ih
    · rw [List.dropWhile_cons_of_neg ha, List.dropWhile_cons_of_neg ha]

/-- A prefix of a list that `dropWhile` leaves unchanged is itself left
unchanged. -/
theorem dropWhile_eq_self_of_prefix (p : Char → Bool) (l₁ l₂ : List Char)
    (h : l₁ <+: l₂) (h₂ : l₂.dropWhile p = l₂) : l₁.dropWhile p = l₁ := by
  obtain ⟨t, rfl⟩ := h
  cases l₁ with
  | nil => rfl
  | cons a l =>
    have ha : ¬ p a := by
      intro hpa
      rw [List.cons_append, List.dropWhile_cons_of_pos hpa] at h₂
      have := congrArg List.length h₂
      have hle := (List.dropWhile_suffix (l := l ++ t) p).length_le
      simp only [List.length_cons, List.length_append] at this hle
      omega
    rw [List.dropWhile_cons_of_neg ha]

/-- Stripping an already-stripped string changes nothing
(`s.strip().strip() == s.strip()`). -/
theorem pyStrip_idem (s : String) : pyStrip (pyStrip s) = pyStrip s := by
  unfold pyStrip
  have hpre : ((s.data.dropWhile isPySpace).reverse.dropWhile isPySpace).reverse
      <+: s.data.dropWhile isPySpace := by
    have hsuf : (s.data.dropWhile isPySpace).reverse.dropWhile isPySpace <:+
        (s.data.dropWhile isPySpace).reverse := List.dropWhile_suffix _
    simpa using hsuf.reverse
  have h1 : (((s.data.dropWhile isPySpace).reverse.dropWhile
      isPySpace).reverse).dropWhile isPySpace =
      ((s.data.dropWhile isPySpace).reverse.dropWhile isPySpace).reverse :=
    dropWhile_eq_self_of_prefix isPySpace _ _ hpre (dropWhile_idem _ _)
  simp only [h1, List.reverse_reverse, dropWhile_idem]

/-- C9: for every region argument, profile, and oracle world, invoking with
service `"EC2 "` (mixed case, trailing space) and the raw region produces
exactly the same run result (exit code, stderr, session call, handler call)
as invoking with `"ec2"` and the trimmed region. -/
theorem c9_normalization_equiv (regionArg : String) (profile : Option String)
    (w : World) :
    runMain "EC2 " regionArg profile w =
      runMain "ec2" (pyStrip regionArg) profile w := by
  unfold runMain
  rw [show pyStrip (pyLower "EC2 ") = pyStrip (pyLower "ec2") from by decide,
    pyStrip_idem]

/-- C8 counterexample: with the whitespace-only region `"   "`, the run is
not rejected — the session provider is called with the empty trimmed region
and (in a world where everything succeeds) the run completes with exit
code 0.  The claim's required rejection of an empty-after-trimming region
does not happen. -/
theorem c8_counterexample_empty_region_accepted :
    (runMain "ec2" "   " none wOkAll).sessionCall = some (none, "") ∧
    (runMain "ec2" "   " none wOkAll).exitCode = 0 := by decide

/-- C8 (amended): the region argument is trimmed and passed through to the
session provider unvalidated — even when it is empty or whitespace-only —
and session resolution failing with the no-region error yields exit code 1
with that error's message. -/
theorem c8_amended_region_passthrough (serviceArg regionArg : String)
    (profile : Option String) (w : World) (svc : Service)
    (hsvc : lookupService (pyStrip (pyLower serviceArg)) = some svc) :
    (runMain serviceArg regionArg profile w).sessionCall =
      some (profile, pyStrip regionArg) ∧
    (∀ m, w.session profile (pyStrip regionArg) = .noRegion m →
      runMain serviceArg regionArg profile w =
        { exitCode := 1, errLines := [failLine m],
          sessionCall := some (profile, pyStrip regionArg),
          handlerCall := none }) := by
  constructor
  · cases hs : w.session profile (pyStrip regionArg) with
    | noRegion m => simp [runMain, hsvc, hs]
    | otherFail m => simp [runMain, hsvc, hs]
    | ok => cases hh : w.handler svc (pyStrip regionArg) <;>
        simp [runMain, hsvc, hs, hh]
  · intro m hm
    simp [runMain, hsvc, hm]

/-- C8 witness: with the whitespace-only region `"   "` and a world whose
session provider reports that no region can be determined, the provider is
called with the empty trimmed region and the run fails with exit code 1 and
the no-region message. -/
theorem c8_amended_region_passthrough_witness :
    lookupService (pyStrip (pyLower "ec2")) = some .ec2 ∧
    (runMain "ec2" "   " none wNoRegionAll).sessionCall = some (none, "") ∧
    runMain "ec2" "   " none wNoRegionAll =
      { exitCode := 1, errLines := [failLine "You must specify a region."],
        sessionCall := some (none, ""), handlerCall := none } := by
  have h := c8_amended_region_passthrough "ec2" "   " none wNoRegionAll .ec2
    (by decide)
  exact ⟨by decide, h.1.trans (by decide),
    (h.2 "You must specify a region." rfl).trans (by decide)⟩

end AwsList
